import Mathlib

/-!
Verification of `bin/setup_tree.py` (dvstark/tree).

The file shallowly embeds the pure logic of the program:

* the filesystem is a read-only view `FS` (which target paths exist, and their
  modification times); symlink state is an explicit map `LinkState` from symlink
  file path to its target (or `none` when no symlink is present);
* `time.strftime("%d-%b-%Y %H:%M", time.localtime t)` is an external library
  call, represented by an abstract formatting function `fmt : Nat → String`;
* file writes and copies are returned as explicit data instead of performed;
* a `stat` call that raises `OSError` is modelled by the target path not
  existing in the `FS` view (the `except OSError` handler becomes the
  corresponding `else` branch);
* The Python exceptions for invalid input (the `assert` in `write_header`, the
  `KeyError` on a missing `environ["general"]["sas_root"]`) become `Option`
  results (`none` = the exception propagates).
-/

namespace SetupTree

/-- The Python substring test `sub in s`, on character lists. -/
def listIn (sub : List Char) : List Char → Bool
  | [] => sub.isEmpty
  | c :: cs => sub.isPrefixOf (c :: cs) || listIn sub cs

/-- The Python substring test `sub in s` for strings (case sensitive). -/
def strIn (sub s : String) : Bool := listIn sub.toList s.toList

/-- The Python `str.upper` (the variable names are ASCII). -/
def strUpper (s : String) : String := String.mk (s.data.map Char.toUpper)

/-- `os.path.join a b` for a relative second component. -/
def pathJoin (a b : String) : String := a ++ "/" ++ b

/-- Read-only view of the data directories of the filesystem: which target paths
exist, and the modification time of each path. -/
structure FS where
  pathExists : String → Bool
  mtime : String → Nat

/-- The state of the `env` symlink directory: for each symlink file path, the
target it points to (`none` when no symlink with that name exists). -/
abbrev LinkState := String → Option String

/-- `_remove_link` (setup_tree.py lines 20-28): remove a symlink if present. -/
def remove_link (links : LinkState) (link : String) : LinkState :=
  fun k => if k = link then none else links k

/-- `make_symlink` (lines 31-41): remove any existing symlink, then create one
pointing at `src`.  The remove-then-create pair collapses to an update. -/
def make_symlink (links : LinkState) (src link : String) : LinkState :=
  fun k => if k = link then some src else links k

/-- `os.path.exists link` for a symlink path: true iff a symlink is present
and its target exists (`os.path.exists` follows symlinks). -/
def linkTargetExists (fs : FS) (links : LinkState) (link : String) : Bool :=
  match links link with
  | some t => fs.pathExists t
  | none => false

/-- One `<tr>` of the generated index table: the three `<td>` cells
(file name, size placeholder, date). -/
structure Row where
  name : String
  size : String
  date : String
deriving DecidableEq, Repr

/-- The row format string of line 107 of setup_tree.py. -/
def rowString (r : Row) : String :=
  "    <tr><td><a href=\"" ++ r.name ++ "/\">" ++ r.name ++ "/</a></td><td>" ++
    r.size ++ "</td><td>" ++ r.date ++ "</td></tr>\n"

/-- The body of the variable loop of `create_index_table`
(setup_tree.py lines 72-107) for a single variable `tree_name` of section
`sec` with path `tree_path`: returns the updated symlink state and the table
row appended for this variable, if any. -/
def processVar (fs : FS) (fmt : Nat → String) (envdir sec tree_name tree_path : String)
    (links : LinkState) : LinkState × Option Row :=
  if strIn "_root" tree_name then (links, none)
  else
    let src := tree_path
    let link := pathJoin envdir (strUpper tree_name)
    if fs.pathExists src then
      let stattime := fmt (fs.mtime src)
      if sec == "general" && strIn "sas_base_dir" tree_name then (links, none)
      else
        let links' :=
          if sec == "general" && (tree_name == "cas_load" || tree_name == "staging_data") then
            (if fs.pathExists src then make_symlink links src link else links)
          else make_symlink links src link
        (links', if linkTargetExists fs links' link then
          some ⟨strUpper tree_name, "-", stattime⟩ else none)
    else (remove_link links link, none)

/-- The symlink file path used for a variable: `envdir/<NAME_UPPER>`. -/
def varKey (envdir tree_name : String) : String := pathJoin envdir (strUpper tree_name)

/-- What processing one variable writes to its own symlink path:
`none` = the path is left untouched, `some w` = the path is set to `w`
(`w = none` is a stale-link removal, `w = some p` a created symlink). -/
def varWrite (fs : FS) (sec tree_name tree_path : String) : Option (Option String) :=
  if strIn "_root" tree_name then none
  else if fs.pathExists tree_path then
    (if sec == "general" && strIn "sas_base_dir" tree_name then none
     else some (some tree_path))
  else some none

/-- The index-table row one variable contributes, independent of the incoming
symlink state: present exactly when the variable passes every skip rule and
its target exists. -/
def rowFor (fs : FS) (fmt : Nat → String) (sec tree_name tree_path : String) : Option Row :=
  if strIn "_root" tree_name then none
  else if fs.pathExists tree_path then
    (if sec == "general" && strIn "sas_base_dir" tree_name then none
     else some ⟨strUpper tree_name, "-", fmt (fs.mtime tree_path)⟩)
  else none

theorem processVar_snd (fs : FS) (fmt : Nat → String) (envdir sec n p : String)
    (links : LinkState) :
    (processVar fs fmt envdir sec n p links).2 = rowFor fs fmt sec n p := by
  unfold processVar rowFor
  cases h1 : strIn "_root" n <;> simp [h1]
  cases h2 : fs.pathExists p <;> simp [h2]
  by_cases h3 : sec = "general" ∧ strIn "sas_base_dir" n = true
  · simp [h3]
  · simp [h3]
    by_cases h4 : sec = "general" ∧ (n = "cas_load" ∨ n = "staging_data") <;>
      simp [h4, linkTargetExists, make_symlink, h2]

theorem processVar_fst (fs : FS) (fmt : Nat → String) (envdir sec n p : String)
    (links : LinkState) (k : String) :
    (processVar fs fmt envdir sec n p links).1 k =
      (match varWrite fs sec n p with
       | none => links k
       | some w => if k = varKey envdir n then w else links k) := by
  unfold processVar varWrite varKey
  cases h1 : strIn "_root" n <;> simp [h1]
  cases h2 : fs.pathExists p <;> simp [h2, remove_link]
  by_cases h3 : sec = "general" ∧ strIn "sas_base_dir" n = true
  · simp [h3]
  · simp [h3]
    by_cases h4 : sec = "general" ∧ (n = "cas_load" ∨ n = "staging_data") <;>
      simp [h4, make_symlink, h2]

/-- Concatenation of a list of strings (left to right). -/
def strConcat : List String → String
  | [] => ""
  | s :: rest => s ++ strConcat rest

theorem strConcat_append (l₁ l₂ : List String) :
    strConcat (l₁ ++ l₂) = strConcat l₁ ++ strConcat l₂ := by
  induction l₁ with
  | nil => simp [strConcat]
  | cons s rest ih => simp [strConcat, ih, String.append_assoc]

/-- `table_header` of `create_index_table` (setup_tree.py lines 56-61). -/
def tableHeader : String :=
  "<table id=\"list\" cellpadding=\"0.1em\" cellspacing=\"0\">\n" ++
  "<colgroup><col width=\"55%\"/><col width=\"20%\"/><col width=\"25%\"/></colgroup>\n" ++
  "<thead>\n" ++
  "    <tr><th><a href=\"?C=N&O=A\">File Name</a>&nbsp;<a href=\"?C=N&O=D\">&nbsp;&darr;&nbsp;</a></th><th><a href=\"?C=S&O=A\">File Size</a>&nbsp;<a href=\"?C=S&O=D\">&nbsp;&darr;&nbsp;</a></th><th><a href=\"?C=M&O=A\">Date</a>&nbsp;<a href=\"?C=M&O=D\">&nbsp;&darr;&nbsp;</a></th></tr>\n" ++
  "</thead><tbody>\n" ++
  "    <tr><td><a href=\"../\">Parent directory/</a></td><td>-</td><td>-</td></tr>"

/-- `table_footer` of `create_index_table` (line 62). -/
def tableFooter : String := "</tbody></table>"

/-- One iteration of the inner loop of `create_index_table`: update the symlink
state and append the row of the variable (if any) to the accumulated table string. -/
def stepVar (fs : FS) (fmt : Nat → String) (envdir : String)
    (acc : LinkState × String) (v : String × String × String) : LinkState × String :=
  let pr := processVar fs fmt envdir v.1 v.2.1 v.2.2 acc.1
  (pr.1, acc.2 ++ (match pr.2 with | some r => rowString r | none => ""))

/-- `create_index_table` (setup_tree.py lines 44-110): loop over the sections
of the environment (skipping `default`) and over the variables of each section,
creating/refreshing symlinks and accumulating the html table string.
Returns the final symlink state together with the table string. -/
def create_index_table (fs : FS) (fmt : Nat → String)
    (sections : List (String × List (String × String))) (envdir : String)
    (links : LinkState) : LinkState × String :=
  let res := sections.foldl (fun acc sv =>
    if sv.1 == "default" then acc
    else sv.2.foldl (fun acc2 np => stepVar fs fmt envdir acc2 (sv.1, np.1, np.2)) acc)
    (links, tableHeader)
  (res.1, res.2 ++ tableFooter)

/-- The `(section, name, path)` triples visited by the loops of
`create_index_table`, in traversal order. -/
def allVars (sections : List (String × List (String × String))) :
    List (String × String × String) :=
  sections.foldr (fun sv acc =>
    if sv.1 == "default" then acc
    else sv.2.map (fun np => (sv.1, np.1, np.2)) ++ acc) []

theorem create_index_table_eq_foldl (fs : FS) (fmt : Nat → String)
    (sections : List (String × List (String × String))) (envdir : String)
    (links : LinkState) :
    create_index_table fs fmt sections envdir links =
      (((allVars sections).foldl (stepVar fs fmt envdir) (links, tableHeader)).1,
       ((allVars sections).foldl (stepVar fs fmt envdir) (links, tableHeader)).2 ++ tableFooter) := by
  unfold create_index_table
  suffices h : ∀ (secs : List (String × List (String × String))) (acc : LinkState × String),
      secs.foldl (fun acc sv =>
        if sv.1 == "default" then acc
        else sv.2.foldl (fun acc2 np => stepVar fs fmt envdir acc2 (sv.1, np.1, np.2)) acc) acc =
      (allVars secs).foldl (stepVar fs fmt envdir) acc by
    rw [h]
  intro secs
  induction secs with
  | nil => intro acc; simp [allVars]
  | cons sv rest ih =>
    intro acc
    have hcons : allVars (sv :: rest) =
        (if sv.1 == "default" then allVars rest
         else sv.2.map (fun np => (sv.1, np.1, np.2)) ++ allVars rest) := rfl
    rw [List.foldl_cons, hcons]
    by_cases hd : (sv.1 == "default") = true
    · rw [if_pos hd, if_pos hd, ih]
    · rw [if_neg hd, if_neg hd, List.foldl_append, List.foldl_map, ih]

/-- The row contribution of one variable as a string. -/
def rowStringFor (fs : FS) (fmt : Nat → String) (v : String × String × String) : String :=
  match rowFor fs fmt v.1 v.2.1 v.2.2 with
  | some r => rowString r
  | none => ""

/-- Folding `stepVar` over a variable list splits into an independent link-state
fold and a row-string concatenation that does not depend on the link state. -/
theorem foldl_stepVar_split (fs : FS) (fmt : Nat → String) (envdir : String)
    (vs : List (String × String × String)) :
    ∀ (acc : LinkState × String),
      vs.foldl (stepVar fs fmt envdir) acc =
        (vs.foldl (fun l v => (processVar fs fmt envdir v.1 v.2.1 v.2.2 l).1) acc.1,
         acc.2 ++ strConcat (vs.map (rowStringFor fs fmt))) := by
  induction vs with
  | nil => intro acc; simp [strConcat]
  | cons v rest ih =>
    intro acc
    simp only [List.foldl_cons, ih, stepVar, List.map_cons, strConcat, String.append_assoc]
    rw [processVar_snd]
    rfl

/-- The link-state part of the fold. -/
def runLinks (fs : FS) (fmt : Nat → String) (envdir : String)
    (vs : List (String × String × String)) (links : LinkState) : LinkState :=
  vs.foldl (fun l v => (processVar fs fmt envdir v.1 v.2.1 v.2.2 l).1) links

/-- The last write a variable list performs on symlink path `k`
(later variables override earlier ones). -/
def lastVarWrite (fs : FS) (envdir : String) (vs : List (String × String × String))
    (k : String) : Option (Option String) :=
  vs.foldr (fun v acc =>
    match acc with
    | some w => some w
    | none =>
      match varWrite fs v.1 v.2.1 v.2.2 with
      | some w => if k = varKey envdir v.2.1 then some w else none
      | none => none) none

theorem runLinks_eq_lastVarWrite (fs : FS) (fmt : Nat → String) (envdir : String)
    (vs : List (String × String × String)) :
    ∀ (links : LinkState) (k : String),
      runLinks fs fmt envdir vs links k =
        (match lastVarWrite fs envdir vs k with
         | some w => w
         | none => links k) := by
  induction vs with
  | nil => intro links k; simp [runLinks, lastVarWrite]
  | cons v rest ih =>
    intro links k
    have hstep : runLinks fs fmt envdir (v :: rest) links =
        runLinks fs fmt envdir rest ((processVar fs fmt envdir v.1 v.2.1 v.2.2 links).1) := rfl
    rw [hstep, ih]
    have hlast : lastVarWrite fs envdir (v :: rest) k =
        (match lastVarWrite fs envdir rest k with
         | some w => some w
         | none =>
           match varWrite fs v.1 v.2.1 v.2.2 with
           | some w => if k = varKey envdir v.2.1 then some w else none
           | none => none) := rfl
    rw [hlast]
    cases hr : lastVarWrite fs envdir rest k with
    | some w => rfl
    | none =>
      rw [processVar_fst]
      cases hw : varWrite fs v.1 v.2.1 v.2.2 with
      | none => rfl
      | some w =>
        by_cases hk : k = varKey envdir v.2.1 <;> simp [hk]

/-- Re-running the symlink loop over an already-updated state changes nothing:
each variable writes a value to its symlink path that does not depend on the
incoming state, and untouched paths are preserved. -/
theorem runLinks_idem (fs : FS) (fmt : Nat → String) (envdir : String)
    (vs : List (String × String × String)) (links : LinkState) :
    runLinks fs fmt envdir vs (runLinks fs fmt envdir vs links) =
      runLinks fs fmt envdir vs links := by
  funext k
  rw [runLinks_eq_lastVarWrite, runLinks_eq_lastVarWrite]
  cases hr : lastVarWrite fs envdir vs k with
  | some w => rfl
  | none => rfl

theorem create_index_table_char (fs : FS) (fmt : Nat → String)
    (sections : List (String × List (String × String))) (envdir : String)
    (links : LinkState) :
    create_index_table fs fmt sections envdir links =
      (runLinks fs fmt envdir (allVars sections) links,
       (tableHeader ++ strConcat ((allVars sections).map (rowStringFor fs fmt))) ++
         tableFooter) := by
  rw [create_index_table_eq_foldl, foldl_stepVar_split]
  rfl

/-- A tree environment as loaded from a configuration file: the `default`
section metadata (`name`, `current`) plus the section/variable mapping, in
stored order.  The loops of the program skip any `default` entry of the
mapping, so `sections` holds the iterated items. -/
structure TreeEnviron where
  name : String
  current : Bool
  sections : List (String × List (String × String))

/-- `environ[sec][key]` as an `Option` (Python raises `KeyError` on `none`). -/
def envLookup (sections : List (String × List (String × String)))
    (sec key : String) : Option String :=
  (List.lookup sec sections).bind (List.lookup key)

/-- The `header` template of `create_index_page` (setup_tree.py lines 131-138)
after `header.format(**defaults)`. -/
def indexHeader (name url : String) : String :=
  "<?xml version=\"1.0\" encoding=\"UTF-8\"?>\n" ++
  "<!DOCTYPE html PUBLIC \"-//W3C//DTD XHTML 1.0 Strict//EN\" \"http://www.w3.org/TR/xhtml1/DTD/xhtml1-strict.dtd\">\n" ++
  "<html xmlns=\"http://www.w3.org/1999/xhtml\">\n" ++
  "<head><meta name=\"viewport\" content=\"width=device-width\"/><meta http-equiv=\"content-type\" content=\"text/html; charset=utf-8\"/><style type=\"text/css\">body,html \x7bbackground:#fff;font-family:\"Bitstream Vera Sans\",\"Lucida Grande\",\"Lucida Sans Unicode\",Lucidux,Verdana,Lucida,sans-serif;\x7dtr:nth-child(even) \x7bbackground:#f4f4f4;\x7dth,td \x7bpadding:0.1em 0.5em;\x7dth \x7btext-align:left;font-weight:bold;background:#eee;border-bottom:1px solid #aaa;\x7d#list \x7bborder:1px solid #aaa;width:100%%;\x7da \x7bcolor:#a33;\x7da:hover \x7bcolor:#e33;\x7d</style>\n" ++
  "<link rel=\"stylesheet\" href=\"" ++ url ++ "/css/sas.css\" type=\"text/css\"/>\n" ++
  "<title>Index of /sas/" ++ name ++ "/env/</title>\n" ++
  "</head><body><h1>Index of /sas/" ++ name ++ "/env/</h1>\n"

/-- The `footer` template of `create_index_page` (lines 141-147) after
`footer.format(**defaults)`. -/
def indexFooter (name url location : String) : String :=
  "<h3><a href=\x27" ++ url ++ "/sas/\x27>" ++ location ++ "</a></h3>\n" ++
  "<p>This directory contains links to the contents of\n" ++
  "environment variables defined by the tree product, version " ++ name ++ ".\n" ++
  "To examine the <em>types</em> of files contained in each environment variable\n" ++
  "directory, visit <a href=\"/datamodel/files/\">the datamodel.</a></p>\n" ++
  "</body></html>\n"

/-- `create_index_page` (setup_tree.py lines 113-153): the full html page, plus
the symlink-state update performed by the `create_index_table` call inside it.
`url` and `location` are the values put into `defaults` by `create_env`. -/
def create_index_page (fs : FS) (fmt : Nat → String) (environ : TreeEnviron)
    (url location envdir : String) (links : LinkState) : LinkState × String :=
  let t := create_index_table fs fmt environ.sections envdir links
  (t.1, indexHeader environ.name url ++ t.2 ++ indexFooter environ.name url location)

/-- The mutable world `create_env` acts on: which directories exist (the data
targets themselves are never created by the program, so they stay in `FS`),
the symlink map, and the content of `envdir/index.html` if written. -/
@[ext]
structure EnvState where
  dirExists : String → Bool
  links : LinkState
  indexHtml : Option String

/-- `create_env` (setup_tree.py lines 156-196).  `writable` models
`os.access(envdir, os.W_OK)`; `mirror` selects the SAM url/location strings.
Returns `none` when `environ["general"]["sas_root"]` raises `KeyError`;
otherwise the updated world. -/
def create_env (fs : FS) (fmt : Nat → String) (environ : TreeEnviron)
    (mirror : Bool) (writable : Bool) (st : EnvState) : Option EnvState :=
  let url := if mirror then "https://data.mirror.sdss.org" else "https://data.sdss.org"
  let location := if mirror then "SDSS-IV Science Archive Mirror (SAM)"
    else "SDSS-IV Science Archive Server (SAS)"
  match envLookup environ.sections "general" "sas_root" with
  | none => none
  | some sasRoot =>
    if fs.pathExists sasRoot then
      let envdir := pathJoin sasRoot "env"
      let st1 := if st.dirExists envdir then st
        else { st with dirExists := fun k => if k = envdir then true else st.dirExists k }
      if writable then
        let pr := create_index_page fs fmt environ url location envdir st1.links
        some { dirExists := st1.dirExists, links := pr.1, indexHtml := some pr.2 }
      else some st1
    else some st

theorem create_index_page_char (fs : FS) (fmt : Nat → String) (environ : TreeEnviron)
    (url location envdir : String) (links : LinkState) :
    create_index_page fs fmt environ url location envdir links =
      (runLinks fs fmt envdir (allVars environ.sections) links,
       indexHeader environ.name url ++
         ((tableHeader ++ strConcat ((allVars environ.sections).map (rowStringFor fs fmt))) ++
           tableFooter) ++ indexFooter environ.name url location) := by
  unfold create_index_page
  rw [create_index_table_char]

/-- C5: when `environ["general"]["sas_root"]` does not exist on disk,
`create_env` returns with the world unchanged: no directory is created, no
symlink is touched, no `index.html` is written, and no error is raised. -/
theorem claim_C5_missing_sas_root_no_effect (fs : FS) (fmt : Nat → String)
    (environ : TreeEnviron) (mirror writable : Bool) (st : EnvState) (root : String)
    (h1 : envLookup environ.sections "general" "sas_root" = some root)
    (h2 : fs.pathExists root = false) :
    create_env fs fmt environ mirror writable st = some st := by
  unfold create_env
  rw [h1]
  simp [h2]

theorem claim_C5_missing_sas_root_no_effect_witness :
    envLookup [("general", [("sas_root", "/sas")])] "general" "sas_root" = some "/sas" ∧
    FS.pathExists ⟨fun _ => false, fun _ => 0⟩ "/sas" = false ∧
    create_env ⟨fun _ => false, fun _ => 0⟩ (fun _ => "")
        ⟨"v1", true, [("general", [("sas_root", "/sas")])]⟩ false true
        ⟨fun _ => false, fun _ => none, none⟩ =
      some ⟨fun _ => false, fun _ => none, none⟩ :=
  ⟨rfl, rfl,
   claim_C5_missing_sas_root_no_effect ⟨fun _ => false, fun _ => 0⟩ (fun _ => "")
     ⟨"v1", true, [("general", [("sas_root", "/sas")])]⟩ false true
     ⟨fun _ => false, fun _ => none, none⟩ "/sas" rfl rfl⟩

/-- C8: running `create_env` a second time against the same environment and the
same (static) target filesystem changes nothing: the symlink map and the
generated `index.html` depend only on the environment and the current state of
the targets, not on prior runs. -/
theorem claim_C8_create_env_idempotent (fs : FS) (fmt : Nat → String)
    (environ : TreeEnviron) (mirror writable : Bool) (st : EnvState) :
    (create_env fs fmt environ mirror writable st).bind
        (create_env fs fmt environ mirror writable) =
      create_env fs fmt environ mirror writable st := by
  cases hl : envLookup environ.sections "general" "sas_root" with
  | none =>
    have hf : ∀ s, create_env fs fmt environ mirror writable s = none := by
      intro s; unfold create_env; rw [hl]
    simp only [hf]
    rfl
  | some sasRoot =>
    cases hex : fs.pathExists sasRoot with
    | false =>
      have hf : ∀ s, create_env fs fmt environ mirror writable s = some s := by
        intro s; unfold create_env; rw [hl]; simp [hex]
      simp only [hf]
      rfl
    | true =>
      cases writable with
      | false =>
        have hf : ∀ s, create_env fs fmt environ mirror false s =
            some (if s.dirExists (pathJoin sasRoot "env") then s
              else { s with dirExists :=
                fun k => if k = pathJoin sasRoot "env" then true else s.dirExists k }) := by
          intro s; unfold create_env; rw [hl]; simp [hex]
        rw [hf st]
        show create_env fs fmt environ mirror false
            (if st.dirExists (pathJoin sasRoot "env") then st
              else { st with dirExists :=
                fun k => if k = pathJoin sasRoot "env" then true else st.dirExists k }) = _
        rw [hf]
        by_cases hd : st.dirExists (pathJoin sasRoot "env")
        · simp [hd]
        · simp [hd]
      | true =>
        have hf : ∀ s, create_env fs fmt environ mirror true s =
            some
              ({ dirExists :=
                   (if s.dirExists (pathJoin sasRoot "env") then s.dirExists
                    else fun k => if k = pathJoin sasRoot "env" then true else s.dirExists k),
                 links :=
                   runLinks fs fmt (pathJoin sasRoot "env") (allVars environ.sections) s.links,
                 indexHtml := some (indexHeader environ.name
                     (if mirror then "https://data.mirror.sdss.org" else "https://data.sdss.org") ++
                   ((tableHeader ++
                     strConcat ((allVars environ.sections).map (rowStringFor fs fmt))) ++
                     tableFooter) ++
                   indexFooter environ.name
                     (if mirror then "https://data.mirror.sdss.org" else "https://data.sdss.org")
                     (if mirror then "SDSS-IV Science Archive Mirror (SAM)"
                      else "SDSS-IV Science Archive Server (SAS)")) } : EnvState) := by
          intro s
          unfold create_env
          rw [hl]
          simp only [hex, if_true]
          rw [create_index_page_char]
          by_cases hd : s.dirExists (pathJoin sasRoot "env") <;> simp [hd]
        rw [hf st]
        show create_env fs fmt environ mirror true _ = _
        rw [hf]
        simp only [Option.some.injEq]
        by_cases hd : st.dirExists (pathJoin sasRoot "env")
        · simp only [hd, if_true]
          ext <;> simp [hd, runLinks_idem]
        · simp only [hd, if_false]
          ext <;> simp [hd, runLinks_idem]

/-- Python's `s.rstrip('/')`: drop trailing slashes. -/
def rstripSlash (s : String) : String :=
  String.mk ((s.data.reverse.dropWhile (fun c => c == '/')).reverse)

/-- The `bash`/`tsch` header template of `write_header` (setup_tree.py lines
236-242), after `.format(name, term, base, product_dir)` and `.strip()`. -/
def headerShell (term tree_dir name : String) : String :=
  let product_dir := rstripSlash tree_dir
  let base := if term == "bash" then "export" else "setenv"
  "# Set up tree/" ++ name ++ " for " ++ term ++ "\n" ++
  base ++ " TREE_DIR " ++ product_dir ++ "\n" ++
  base ++ " TREE_VER " ++ term ++ "\n" ++
  base ++ " PATH $TREE_DIR/bin:$PATH\n" ++
  base ++ " PYTHONPATH $TREE_DIR/python:$PYTHONPATH"

/-- The `modules` header template of `write_header` (lines 243-261), after
`.format(product_dir, name)` and `.strip()`. -/
def headerModules (tree_dir name : String) : String :=
  let product_dir := rstripSlash tree_dir
  "#%Module1.0\n" ++
  "proc ModulesHelp \x7b \x7d \x7b\n" ++
  "    global product version\n" ++
  "    puts stderr \"This module adds $product/$version to various paths\"\n" ++
  "\x7d\n" ++
  "set name tree\n" ++
  "set product tree\n" ++
  "set version " ++ name ++ "\n" ++
  "conflict $product\n" ++
  "module-whatis \"Sets up $product/$version in your environment\"\n" ++
  "\n" ++
  "set PRODUCT_DIR " ++ product_dir ++ "\n" ++
  "setenv [string toupper $product]_DIR $PRODUCT_DIR\n" ++
  "setenv [string toupper $product]_VER $version\n" ++
  "prepend-path PATH $PRODUCT_DIR/bin\n" ++
  "prepend-path PYTHONPATH $PRODUCT_DIR/python"

/-- `write_header` (setup_tree.py lines 216-263); `none` models the failed
`assert` for an unsupported `term`. -/
def write_header (term tree_dir name : String) : Option String :=
  if term == "bash" || term == "tsch" || term == "modules" then
    (if term != "modules" then some (headerShell term tree_dir name)
     else some (headerModules tree_dir name))
  else none

/-- `write_version` (setup_tree.py lines 266-269). -/
def write_version (name : String) : String :=
  "#%Module1.0\nset ModulesVersion " ++ name

/-- The `exts` dictionary lookup `exts[term]` of `write_file` (lines 293-294);
`none` models the `KeyError`. -/
def extOf (term : String) : Option String :=
  if term == "bash" then some ".sh"
  else if term == "tsch" then some ".csh"
  else if term == "modules" then some ".module"
  else none

/-- The per-variable line template of `write_file` (lines 297-300). -/
def shellCmd (term n v : String) : String :=
  if term == "bash" then "export " ++ n ++ "=" ++ v ++ "\n"
  else "setenv " ++ n ++ " " ++ v ++ "\n"

/-- The files `write_file` produces: the main environment file, and the
`.version` marker when it is written. -/
structure WrittenFiles where
  mainFile : String × String
  versionFile : Option (String × String)

/-- `write_file` (setup_tree.py lines 272-319): writes
`out_dir/<name><ext>` with the dialect header followed, for every non-default
section, by a comment separator and one line per variable; then writes
`out_dir/.version` when the dialect is `modules` and the configuration is
current.  `none` models a raised exception (invalid `term`). -/
def write_file (environ : TreeEnviron) (term out_dir tree_dir : String) :
    Option WrittenFiles :=
  match write_header term tree_dir environ.name with
  | none => none
  | some header =>
    match extOf term with
    | none => none
    | some ext =>
      let body := environ.sections.foldl (fun acc kv =>
        if kv.1 == "default" then acc
        else kv.2.foldl (fun a np => a ++ shellCmd term (strUpper np.1) np.2)
          (acc ++ "#\n# " ++ kv.1 ++ "\n#\n")) ""
      let content := header ++ "\n" ++ body
      some
        { mainFile := (pathJoin out_dir (environ.name ++ ext), content),
          versionFile :=
            if term == "modules" && environ.current then
              some (pathJoin out_dir ".version", write_version environ.name)
            else none }

/-- C3: the `.version` marker is written if and only if the dialect is
`modules` and `environ["default"]["current"]` is true, and its content is
exactly the two lines `#%Module1.0` and `set ModulesVersion <name>`; for any
other dialect, or when `current` is false, no `.version` file is touched. -/
theorem claim_C3_version_marker_iff_modules_current (environ : TreeEnviron)
    (term out_dir tree_dir : String) :
    (write_file environ term out_dir tree_dir).bind (fun w => w.versionFile) =
      (if term == "modules" && environ.current then
        some (pathJoin out_dir ".version", "#%Module1.0\nset ModulesVersion " ++ environ.name)
       else none) := by
  unfold write_file write_header extOf write_version
  by_cases hb : term = "bash"
  · simp [hb]
  · by_cases ht : term = "tsch"
    · simp [ht]
    · by_cases hm : term = "modules"
      · simp [hm]
      · have hb' : (term == "bash") = false := by simp [hb]
        have ht' : (term == "tsch") = false := by simp [ht]
        have hm' : (term == "modules") = false := by simp [hm]
        simp [hb', ht', hm']

theorem foldl_append_strConcat {α : Type} (f : α → String) (l : List α) :
    ∀ a : String, l.foldl (fun s x => s ++ f x) a = a ++ strConcat (l.map f) := by
  induction l with
  | nil => intro a; simp [strConcat]
  | cons x rest ih => intro a; simp [strConcat, ih, String.append_assoc]

theorem foldl_shellBody (term : String)
    (sections : List (String × List (String × String))) :
    ∀ acc : String,
      sections.foldl (fun acc kv =>
        if kv.1 == "default" then acc
        else kv.2.foldl (fun a np => a ++ shellCmd term (strUpper np.1) np.2)
          (acc ++ "#\n# " ++ kv.1 ++ "\n#\n")) acc =
      acc ++ strConcat ((sections.filter (fun sv => !(sv.1 == "default"))).map (fun sv =>
        "#\n# " ++ sv.1 ++ "\n#\n" ++
          strConcat (sv.2.map (fun np => shellCmd term (strUpper np.1) np.2)))) := by
  induction sections with
  | nil => intro acc; simp [strConcat]
  | cons sv rest ih =>
    intro acc
    rw [List.foldl_cons]
    by_cases hd : (sv.1 == "default") = true
    · rw [if_pos hd, ih, List.filter_cons]
      simp [hd]
    · rw [if_neg hd, foldl_append_strConcat, ih, List.filter_cons]
      have hd' : (!(sv.1 == "default")) = true := by
        cases h : sv.1 == "default"
        · rfl
        · exact absurd h hd
      simp only [hd', if_true, List.map_cons, strConcat]
      simp [String.append_assoc]

/-- The file body the specification describes for the posix-shell dialect:
for every non-default section (in the key order of the mapping), a comment
separator naming the section, then one `export NAME=path` line per variable
in the stored order of the section, with no variable filtered out. -/
def bashBodySpec (sections : List (String × List (String × String))) : String :=
  strConcat ((sections.filter (fun sv => !(sv.1 == "default"))).map (fun sv =>
    "#\n# " ++ sv.1 ++ "\n#\n" ++
      strConcat (sv.2.map (fun np => "export " ++ strUpper np.1 ++ "=" ++ np.2 ++ "\n"))))

/-- C4: with the posix-shell dialect, `write_file` writes
`out_dir/<name>.sh` whose content after the header holds, for every
non-default section, a separator naming the section and one
`export NAME_UPPER=path` line per variable in stored order, with no variable
filtered out (in particular a `general` variable such as `sas_root` is still
emitted, unlike in symlink building); no `.version` file is touched. -/
theorem claim_C4_bash_body_unfiltered (environ : TreeEnviron) (out_dir tree_dir : String) :
    write_file environ "bash" out_dir tree_dir =
      some
        { mainFile := (pathJoin out_dir (environ.name ++ ".sh"),
            headerShell "bash" tree_dir environ.name ++ "\n" ++ bashBodySpec environ.sections),
          versionFile := none } := by
  unfold write_file write_header extOf
  simp only [String.reduceBEq, Bool.false_or, Bool.or_false, Bool.or_true, if_true]
  rw [foldl_shellBody]
  unfold bashBodySpec
  simp [shellCmd]

/-- `os.path.basename`: the part after the last `/`. -/
def basename (s : String) : String :=
  String.mk ((s.data.reverse.takeWhile (fun c => !(c == '/'))).reverse)

/-- `os.path.splitext(s)[0]` for a bare file name: the name with its last
extension removed; leading dots never start an extension
(`splitext(".version") = (".version", "")`). -/
def splitextRoot (s : String) : String :=
  let lead := s.data.takeWhile (fun c => c == '.')
  let rest := s.data.drop lead.length
  if rest.any (fun c => c == '.') then
    String.mk (lead ++ ((rest.reverse.dropWhile (fun c => !(c == '.'))).drop 1).reverse)
  else s

/-- Which directory entries `glob.glob(os.path.join(filespath, "*.module"))`
returns: names ending in `.module`; glob hides names starting with a dot. -/
def isModuleGlob (f : String) : Bool :=
  (".module".data.isSuffixOf f.data) && !(".".data.isPrefixOf f.data)

/-- `copy_modules` (setup_tree.py lines 342-374), with `modules_path` already
resolved (the `$MODULEPATH`/prompt resolution is interactive and outside the
embedding): the list of `(source, destination)` copies performed via
`shutil.copy2`, which preserves file metadata.  `dirFiles` are the entries of
`filespath`; `versionIsFile` models `os.path.isfile(filespath/.version)`;
`copy2` into the directory `tree_mod` lands at `tree_mod/.version`. -/
def copy_modules (filespath modules_path : String) (dirFiles : List String)
    (versionIsFile : Bool) : List (String × String) :=
  let tree_mod := pathJoin modules_path "tree"
  let module_files := (dirFiles.filter isModuleGlob).map (fun f => pathJoin filespath f)
  let copies := module_files.foldl (fun acc mfile =>
    acc ++ [(mfile, pathJoin tree_mod (splitextRoot (basename mfile)))]) []
  if versionIsFile then
    copies ++ [(pathJoin filespath ".version", pathJoin tree_mod ".version")]
  else copies

theorem takeWhile_append_of_all {α : Type} (p : α → Bool) (l₁ l₂ : List α)
    (h : ∀ c ∈ l₁, p c = true) :
    (l₁ ++ l₂).takeWhile p = l₁ ++ l₂.takeWhile p := by
  induction l₁ with
  | nil => simp
  | cons c rest ih =>
    have hc : p c = true := h c (List.mem_cons_self c rest)
    simp only [List.cons_append, List.takeWhile_cons, hc, if_true]
    rw [ih (fun x hx => h x (List.mem_cons_of_mem c hx))]

theorem basename_pathJoin (a f : String) (hf : ('/' : Char) ∉ f.data) :
    basename (pathJoin a f) = f := by
  unfold basename pathJoin
  have hdata : (a ++ "/" ++ f).data = a.data ++ '/' :: f.data := by
    simp
  rw [hdata]
  have hrev : (a.data ++ '/' :: f.data).reverse = f.data.reverse ++ '/' :: a.data.reverse := by
    simp
  rw [hrev]
  rw [takeWhile_append_of_all (fun c => !(c == '/')) f.data.reverse ('/' :: a.data.reverse)
    (fun c hc => by
      have hcf : c ∈ f.data := List.mem_reverse.mp hc
      have hne : ¬(c = '/') := fun he => hf (he ▸ hcf)
      simp [hne])]
  have ht : List.takeWhile (fun c => !(c == '/')) ('/' :: a.data.reverse) = [] := by
    simp [List.takeWhile_cons]
  rw [ht, List.append_nil, List.reverse_reverse]

theorem foldl_append_singleton {α β : Type} (g : α → β) (l : List α) :
    ∀ acc : List β, l.foldl (fun acc x => acc ++ [g x]) acc = acc ++ l.map g := by
  induction l with
  | nil => intro acc; simp
  | cons x rest ih => intro acc; simp [ih]

/-- C2 as stated fails: the destination of a `foo.module` copy is
`<modulesRoot>/tree/foo` — the `.module` extension is stripped by
`os.path.splitext` — not `<modulesRoot>/tree/foo.module`. -/
theorem claim_C2_counterexample :
    copy_modules "etc" "mr" ["foo.module"] false = [("etc/foo.module", "mr/tree/foo")] ∧
    ("etc/foo.module", "mr/tree/foo.module") ∉
      copy_modules "etc" "mr" ["foo.module"] false := by
  constructor
  · rfl
  · decide

/-- C2 amended: `copy_modules` copies every `*.module` file of the source
directory into `modulesRootDir/tree/` with the destination named `<name>`
(the `.module` extension stripped), each copy performed with `shutil.copy2`
(metadata preserved), and also copies `.version` into the same destination
directory when it is a regular file. -/
theorem claim_C2_amended_copies (filespath modules_path : String)
    (dirFiles : List String) (versionIsFile : Bool)
    (h : ∀ f ∈ dirFiles, ('/' : Char) ∉ f.data) :
    copy_modules filespath modules_path dirFiles versionIsFile =
      (dirFiles.filter isModuleGlob).map (fun f =>
        (pathJoin filespath f, pathJoin (pathJoin modules_path "tree") (splitextRoot f))) ++
      (if versionIsFile then
        [(pathJoin filespath ".version", pathJoin (pathJoin modules_path "tree") ".version")]
       else []) := by
  unfold copy_modules
  simp only []
  rw [foldl_append_singleton]
  simp only [List.nil_append, List.map_map]
  have hmap : List.map
      ((fun mfile => (mfile, pathJoin (pathJoin modules_path "tree") (splitextRoot (basename mfile)))) ∘
        fun f => pathJoin filespath f) (List.filter isModuleGlob dirFiles) =
      List.map (fun f =>
        (pathJoin filespath f, pathJoin (pathJoin modules_path "tree") (splitextRoot f)))
        (List.filter isModuleGlob dirFiles) := by
    apply List.map_congr_left
    intro f hfmem
    have hf : ('/' : Char) ∉ f.data := h f (List.mem_of_mem_filter hfmem)
    simp [basename_pathJoin filespath f hf]
  rw [hmap]
  cases versionIsFile <;> simp

theorem claim_C2_amended_copies_witness :
    copy_modules "etc" "mr" ["a.module", "b.txt"] true =
      [("etc/a.module", "mr/tree/a"), ("etc/.version", "mr/tree/.version")] := by
  rw [claim_C2_amended_copies "etc" "mr" ["a.module", "b.txt"] true (by decide)]
  rfl

/-- C1 as stated fails: a variable whose name contains `_root` is skipped in
every section, not only in `general` — line 74 of setup_tree.py tests the name
before any section test.  Concretely, for the variable `foo_root` of section
`spectro` whose target `/d` exists, no symlink is attempted (the symlink path
stays empty) and no row is produced, where the claim promises a normal symlink
attempt. -/
theorem claim_C1_counterexample :
    FS.pathExists ⟨fun p => p == "/d", fun _ => 0⟩ "/d" = true ∧
    (processVar ⟨fun p => p == "/d", fun _ => 0⟩ (fun _ => "t") "e" "spectro" "foo_root" "/d"
      (fun _ => none)).1 (varKey "e" "foo_root") = none ∧
    (processVar ⟨fun p => p == "/d", fun _ => 0⟩ (fun _ => "t") "e" "spectro" "foo_root" "/d"
      (fun _ => none)).2 = none :=
  ⟨rfl, rfl, rfl⟩

/-- C1 amended: a variable whose name contains `_root` (case sensitive) is
skipped in **every** section: the symlink state is returned unchanged — no
symlink is created or removed — and no index row is produced. -/
theorem claim_C1_amended_root_skipped_in_all_sections (fs : FS) (fmt : Nat → String)
    (envdir sec n p : String) (links : LinkState)
    (h : strIn "_root" n = true) :
    processVar fs fmt envdir sec n p links = (links, none) := by
  unfold processVar
  rw [if_pos h]

theorem claim_C1_amended_root_skipped_in_all_sections_witness :
    strIn "_root" "foo_root" = true ∧
    processVar ⟨fun p => p == "/d", fun _ => 0⟩ (fun _ => "t") "e" "spectro" "foo_root" "/d"
        (fun _ => none) = ((fun _ => none : LinkState), none) :=
  ⟨rfl, claim_C1_amended_root_skipped_in_all_sections ⟨fun p => p == "/d", fun _ => 0⟩
    (fun _ => "t") "e" "spectro" "foo_root" "/d" (fun _ => none) rfl⟩

/-- C6: for `general/cas_load` and `general/staging_data` processing sets the
symlink of the variable exactly when the target exists (a missing target removes a
stale link instead); and every variable outside `general` that the `_root`
rule does not skip always gets a symlink attempt: its symlink path ends up
created when the target exists and cleared when it is missing, regardless of
the previous state. -/
theorem claim_C6_optional_dirs_iff_target_exists (fs : FS) (fmt : Nat → String)
    (envdir sec n p : String) (links : LinkState)
    (h : (sec = "general" ∧ (n = "cas_load" ∨ n = "staging_data")) ∨
         (sec ≠ "general" ∧ strIn "_root" n = false)) :
    (processVar fs fmt envdir sec n p links).1 (varKey envdir n) =
      (if fs.pathExists p then some p else none) := by
  rw [processVar_fst]
  rcases h with ⟨hs, hn⟩ | ⟨hs, hn⟩
  · subst hs
    rcases hn with h1 | h1 <;> subst h1 <;>
      · unfold varWrite
        cases he : fs.pathExists p <;> simp [he, strIn, listIn, List.isPrefixOf]
  · have hs' : (sec == "general") = false := by
      cases hb : sec == "general"
      · rfl
      · exact absurd (by simpa using hb) hs
    unfold varWrite
    cases he : fs.pathExists p <;> simp [he, hn, hs']

theorem claim_C6_optional_dirs_iff_target_exists_witness :
    (processVar ⟨fun p => p == "/d", fun _ => 0⟩ (fun _ => "t") "e" "general" "cas_load" "/d"
        (fun _ => none)).1 (varKey "e" "cas_load") =
      (if FS.pathExists ⟨fun p => p == "/d", fun _ => 0⟩ "/d" then some "/d" else none) :=
  claim_C6_optional_dirs_iff_target_exists ⟨fun p => p == "/d", fun _ => 0⟩ (fun _ => "t")
    "e" "general" "cas_load" "/d" (fun _ => none) (Or.inl ⟨rfl, Or.inl rfl⟩)

/-- C7: when the stat of the target of a variable fails during symlink building, no
error propagates — `processVar` returns normally (the handler for `OSError` is
total in the embedding): any pre-existing symlink under the uppercased name of
uppercased name is removed, the variable gets no index row, and processing
continues with the next variable. -/
theorem claim_C7_stat_failure_removes_stale_link (fs : FS) (fmt : Nat → String)
    (envdir sec n p : String) (links : LinkState)
    (h1 : strIn "_root" n = false) (h2 : fs.pathExists p = false) :
    processVar fs fmt envdir sec n p links =
      (remove_link links (varKey envdir n), none) := by
  unfold processVar varKey
  simp [h1, h2]

theorem claim_C7_stat_failure_removes_stale_link_witness :
    processVar ⟨fun _ => false, fun _ => 0⟩ (fun _ => "t") "e" "cat" "spectro" "/d"
        (fun _ => some "/old") =
      (remove_link (fun _ => some "/old") (varKey "e" "spectro"), none) :=
  claim_C7_stat_failure_removes_stale_link ⟨fun _ => false, fun _ => 0⟩ (fun _ => "t")
    "e" "cat" "spectro" "/d" (fun _ => some "/old") rfl rfl

/-- C10: a `general`-section variable whose name contains `sas_base_dir` never
gets a symlink created nor an index row: after its target is statted it is
skipped with only a log message, so its symlink path is either left unchanged
(stat succeeded) or merely cleared of a stale link (stat failed) — never set. -/
theorem claim_C10_sas_base_dir_never_linked (fs : FS) (fmt : Nat → String)
    (envdir n p : String) (links : LinkState)
    (h : strIn "sas_base_dir" n = true) :
    (processVar fs fmt envdir "general" n p links).2 = none ∧
    ((processVar fs fmt envdir "general" n p links).1 (varKey envdir n) =
        links (varKey envdir n) ∨
     (processVar fs fmt envdir "general" n p links).1 (varKey envdir n) = none) := by
  rw [processVar_snd, processVar_fst]
  unfold rowFor varWrite
  cases h1 : strIn "_root" n
  · cases h2 : fs.pathExists p
    · simp [h1, h2]
    · simp [h1, h2, h]
  · simp [h1]

theorem claim_C10_sas_base_dir_never_linked_witness :
    (processVar ⟨fun p => p == "/d", fun _ => 0⟩ (fun _ => "t") "e" "general" "sas_base_dir"
        "/d" (fun _ => none)).2 = none ∧
    ((processVar ⟨fun p => p == "/d", fun _ => 0⟩ (fun _ => "t") "e" "general" "sas_base_dir"
        "/d" (fun _ => none)).1 (varKey "e" "sas_base_dir") =
        (fun _ => none : LinkState) (varKey "e" "sas_base_dir") ∨
     (processVar ⟨fun p => p == "/d", fun _ => 0⟩ (fun _ => "t") "e" "general" "sas_base_dir"
        "/d" (fun _ => none)).1 (varKey "e" "sas_base_dir") = none) :=
  claim_C10_sas_base_dir_never_linked ⟨fun p => p == "/d", fun _ => 0⟩ (fun _ => "t")
    "e" "sas_base_dir" "/d" (fun _ => none) rfl

/-- C9 as stated fails: a variable can end its processing with a symlink of
its name present on disk and still contribute no row.  A `_root`-named
variable is skipped wholesale, so a pre-existing symlink under its uppercased
name (pointing at an existing target) survives untouched, yet the generated
table holds no rows at all. -/
theorem claim_C9_counterexample :
    linkTargetExists ⟨fun p => p == "/t", fun _ => 0⟩
        (create_index_table ⟨fun p => p == "/t", fun _ => 0⟩ (fun _ => "d")
          [("cat", [("a_root", "/t")])] "e"
          (fun k => if k = "e/A_ROOT" then some "/t" else none)).1
        (varKey "e" "a_root") = true ∧
    (create_index_table ⟨fun p => p == "/t", fun _ => 0⟩ (fun _ => "d")
        [("cat", [("a_root", "/t")])] "e"
        (fun k => if k = "e/A_ROOT" then some "/t" else none)).2 =
      tableHeader ++ tableFooter := by
  constructor
  · rfl
  · show (tableHeader ++ "") ++ tableFooter = tableHeader ++ tableFooter
    simp

/-- The rows the index table holds, one per variable, in traversal order. -/
def specTableRows (fs : FS) (fmt : Nat → String)
    (sections : List (String × List (String × String))) : List Row :=
  (allVars sections).filterMap (fun v => rowFor fs fmt v.1 v.2.1 v.2.2)

theorem strConcat_rowStrings (fs : FS) (fmt : Nat → String)
    (vs : List (String × String × String)) :
    strConcat (vs.map (rowStringFor fs fmt)) =
      strConcat ((vs.filterMap (fun v => rowFor fs fmt v.1 v.2.1 v.2.2)).map rowString) := by
  induction vs with
  | nil => rfl
  | cons v rest ih =>
    simp only [List.map_cons, strConcat, List.filterMap_cons]
    cases hr : rowFor fs fmt v.1 v.2.1 v.2.2 with
    | none =>
      rw [show rowStringFor fs fmt v = "" by unfold rowStringFor; rw [hr]]
      simp [ih]
    | some r =>
      rw [show rowStringFor fs fmt v = rowString r by unfold rowStringFor; rw [hr]]
      simp [ih, strConcat]

/-- C9 amended: the generated table is the fixed header, then exactly one row
per variable whose symlink is created during its own processing (equivalently
whose `varWrite` is a symlink creation; such a symlink exists on disk
immediately afterwards), in the traversal order of sections and variables,
each row carrying the uppercased name, the uniform `-` size placeholder and
the formatted modification time of the target, then the fixed footer.  A variable
that is skipped contributes no row even when an identically-named symlink is
already on disk. -/
theorem claim_C9_amended_table_rows (fs : FS) (fmt : Nat → String)
    (sections : List (String × List (String × String))) (envdir : String)
    (links : LinkState) :
    ((create_index_table fs fmt sections envdir links).2 =
      (tableHeader ++ strConcat ((specTableRows fs fmt sections).map rowString)) ++
        tableFooter) ∧
    (∀ sec n p, rowFor fs fmt sec n p ≠ none ↔ varWrite fs sec n p = some (some p)) ∧
    (∀ sec n p, rowFor fs fmt sec n p ≠ none →
      rowFor fs fmt sec n p = some ⟨strUpper n, "-", fmt (fs.mtime p)⟩) := by
  refine ⟨?_, ?_, ?_⟩
  · rw [create_index_table_char]
    unfold specTableRows
    rw [strConcat_rowStrings]
  · intro sec n p
    unfold rowFor varWrite
    cases h1 : strIn "_root" n
    · cases h2 : fs.pathExists p
      · simp [h1, h2]
      · by_cases h3 : sec = "general" ∧ strIn "sas_base_dir" n = true <;> simp [h1, h2, h3]
    · simp [h1]
  · intro sec n p hne
    unfold rowFor at hne ⊢
    cases h1 : strIn "_root" n
    · cases h2 : fs.pathExists p
      · rw [h1, h2] at hne
        simp at hne
      · by_cases h3 : sec = "general" ∧ strIn "sas_base_dir" n = true
        · rw [h1, h2] at hne
          simp [h3] at hne
        · simp [h1, h2, h3]
    · rw [h1] at hne
      simp at hne

end SetupTree
